import Mathlib

/-!
Shallow embedding of `scripts/update_rpc.py`, a one-shot maintenance script
that fetches chain-metadata JSON records for a static registry of chain ids,
filters each record's RPC endpoint list to http/https schemes, and rewrites a
generated Python constants file.

Python strings are modelled as Lean `String` (a wrapper around `List Char`),
dictionaries as insertion-ordered association lists, the HTTP layer as a
function from URL to response, and the filesystem as the destination file's
content threaded explicitly.  Exceptions become `Except` values.
-/

set_option autoImplicit false

namespace UpdateRpc

/-- The static registry `CHAIN_IDS`: ecosystem name → network name → chain id,
in the source's insertion order. -/
def CHAIN_IDS : List (String × List (String × Nat)) :=
  [("base", [("mainnet", 8453), ("sepolia", 84532)]),
   ("ethereum", [("mainnet", 1), ("goerli", 5), ("sepolia", 11155111)]),
   ("gnosis", [("mainnet", 100)]),
   ("polygon", [("mainnet", 137), ("mumbai", 80001)]),
   ("polygon-zkevm", [("mainnet", 1101), ("testnet", 1442)])]

/-- `INCLUDE_PROTOCOLS = ["http", "https"]`. -/
def INCLUDE_PROTOCOLS : List String := ["http", "https"]

/-- `SOURCE_URL` constant from the script. -/
def SOURCE_URL : String :=
  "https://raw.githubusercontent.com/ethereum-lists/chains/master/_data/chains/"

/-- The pydantic `Chain` model.  `dict[str, Any]` values are modelled as
association lists with opaque string values (the script never inspects them);
`Optional` fields with default `None` become `Option` fields defaulting to
`none`. -/
structure Chain where
  name : String
  chain : String
  icon : Option String := none
  rpc : List String
  features : Option (List (List (String × String))) := none
  faucets : List String
  nativeCurrency : List (String × String)
  infoURL : String
  shortName : String
  chainId : Int
  networkId : Int
  slip44 : Option Int := none
  ens : Option (List (String × String)) := none
  explorers : List (List (String × String))
  deriving Repr, DecidableEq

/-- A JSON response body as parsed, before pydantic validation: every field of
the `Chain` schema may be absent. -/
structure RawChain where
  name : Option String := none
  chain : Option String := none
  icon : Option String := none
  rpc : Option (List String) := none
  features : Option (List (List (String × String))) := none
  faucets : Option (List String) := none
  nativeCurrency : Option (List (String × String)) := none
  infoURL : Option String := none
  shortName : Option String := none
  chainId : Option Int := none
  networkId : Option Int := none
  slip44 : Option Int := none
  ens : Option (List (String × String)) := none
  explorers : Option (List (List (String × String))) := none
  deriving Repr, DecidableEq

/-- Errors the script can raise: the bare `Exception(msg)` raised on a
non-200 status, and pydantic's `ValidationError`. -/
inductive ScriptError where
  | exception (msg : String)
  | validationError
  deriving Repr, DecidableEq

/-- An HTTP response: `status_code`, and the body.  A body that is not even
parseable JSON is `none`; otherwise the parsed object with possibly missing
fields. -/
structure Response where
  status_code : Nat
  text : Option RawChain
  deriving Repr, DecidableEq

/-- `Chain.model_validate_json`: fail unless the body parses and every
required field is present; optional fields keep their parsed value or the
default `none`. -/
def model_validate_json (body : Option RawChain) : Except ScriptError Chain :=
  match body with
  | none => .error .validationError
  | some raw =>
    match raw.name, raw.chain, raw.rpc, raw.faucets, raw.nativeCurrency,
          raw.infoURL, raw.shortName, raw.chainId, raw.networkId, raw.explorers with
    | some nm, some ch, some rpc, some fa, some nc, some iu, some sn, some ci, some ni, some ex =>
      .ok { name := nm, chain := ch, icon := raw.icon, rpc := rpc,
            features := raw.features, faucets := fa, nativeCurrency := nc,
            infoURL := iu, shortName := sn, chainId := ci, networkId := ni,
            slip44 := raw.slip44, ens := raw.ens, explorers := ex }
    | _, _, _, _, _, _, _, _, _, _ => .error .validationError

/-- Characters of `l` before the first occurrence of `sep`: Python's
`s.split(sep)[0]` for a one-character separator. -/
def beforeSep (sep : Char) : List Char → List Char
  | [] => []
  | c :: cs => if c = sep then [] else c :: beforeSep sep cs

/-- Python `s.split(":")[0]` lifted to `String`. -/
def splitHead (sep : Char) (s : String) : String :=
  ⟨beforeSep sep s.data⟩

/-- The endpoint filter of `fetch_chain`:
`rpc.split(":")[0] in INCLUDE_PROTOCOLS`. -/
def keepRpc (rpc : String) : Bool :=
  INCLUDE_PROTOCOLS.contains (splitHead ':' rpc)

/-- `urljoin` of `SOURCE_URL` and the filename pattern embedding the chain
id; `SOURCE_URL` ends in a slash, so the join is concatenation. -/
def lookup_url (chain_id : Nat) : String :=
  SOURCE_URL ++ "eip155-" ++ toString chain_id ++ ".json"

/-- `fetch_chain`, parametrised by the HTTP layer `get`.  Raises on a non-200
status (with the URL in the message), validates the body, then filters the
`rpc` list. -/
def fetch_chain (get : String → Response) (chain_id : Nat) : Except ScriptError Chain :=
  let url := lookup_url chain_id
  let r := get url
  if r.status_code ≠ 200 then
    .error (.exception ("Failed to fetch " ++ url))
  else
    match model_validate_json r.text with
    | .error e => .error e
    | .ok chain => .ok { chain with rpc := chain.rpc.filter keepRpc }

/-- The aggregated result type: a Python `dict[str, dict[str, Chain]]`,
modelled as an insertion-ordered association list. -/
abbrev ChainsDict : Type := List (String × List (String × Chain))

/-- Python dict assignment `d[k] = v` on an ordered association list: replace
in place if the key exists, otherwise append. -/
def dictSet {α : Type} (d : List (String × α)) (k : String) (v : α) :
    List (String × α) :=
  if d.any (fun p => p.1 == k) then
    d.map (fun p => if p.1 == k then (k, v) else p)
  else
    d ++ [(k, v)]

/-- `ensure_dict(chains, key)`: in this typed model every stored value is a
dict, so the `isinstance` test of the source always holds and the function
only inserts an empty sub-dict when `key` is absent. -/
def ensure_dict (d : ChainsDict) (key : String) : ChainsDict :=
  if d.any (fun p => p.1 == key) then d else d ++ [(key, [])]

/-- `chains[ecosystem][network] = c`, for an `ecosystem` key already present
(guaranteed by `ensure_dict` at every call site). -/
def setNested (chains : ChainsDict) (eco network : String) (c : Chain) :
    ChainsDict :=
  chains.map (fun p => if p.1 == eco then (p.1, dictSet p.2 network c) else p)

/-- The inner loop of `fetch_chains` over one ecosystem's networks, with the
accumulated `chains` dict threaded explicitly; a fetch failure propagates. -/
def fetch_nets (get : String → Response) (eco : String) :
    List (String × Nat) → ChainsDict → Except ScriptError ChainsDict
  | [], chains => .ok chains
  | (network, chain_id) :: rest, chains =>
    let chains := ensure_dict chains eco
    match fetch_chain get chain_id with
    | .error e => .error e
    | .ok c => fetch_nets get eco rest (setNested chains eco network c)

/-- The outer loop of `fetch_chains` over a registry. -/
def fetch_chains_from (get : String → Response) :
    List (String × List (String × Nat)) → ChainsDict → Except ScriptError ChainsDict
  | [], chains => .ok chains
  | (eco, nets) :: rest, chains =>
    match fetch_nets get eco nets chains with
    | .error e => .error e
    | .ok chains2 => fetch_chains_from get rest chains2

/-- `fetch_chains()`: iterate the static registry starting from `{}`. -/
def fetch_chains (get : String → Response) : Except ScriptError ChainsDict :=
  fetch_chains_from get CHAIN_IDS []

/-- One emitted endpoint line: `            "<rpc>",`. -/
def rpcLine (rpc : String) : String :=
  "            \"" ++ rpc ++ "\",\n"

/-- Python `"${" in rpc`, via the generic substring test below. -/
def matchHead : List Char → List Char → Bool
  | [], _ => true
  | _ :: _, [] => false
  | a :: as, b :: bs => a == b && matchHead as bs

/-- `containsSub needle hay`: some suffix of `hay` starts with `needle`. -/
def containsSub (needle : List Char) : List Char → Bool
  | [] => matchHead needle []
  | c :: cs => matchHead needle (c :: cs) || containsSub needle cs

/-- Python substring containment `needle in s`. -/
def hasSubstr (needle s : String) : Bool :=
  containsSub needle.data s.data

/-- The template marker `"${"` skipped by the writer. -/
def templateMarker : String := "$\x7b"

/-- The writer's innermost loop: for each rpc, skip it when it contains
`"${"`, otherwise emit its quoted line. -/
def rpcSection : List String → String
  | [] => ""
  | rpc :: rest =>
    (if hasSubstr templateMarker rpc then "" else rpcLine rpc) ++ rpcSection rest

/-- The writer's block for one network. -/
def networkBlock (network : String) (chain : Chain) : String :=
  "        \"" ++ network ++ "\": [\n" ++ rpcSection chain.rpc ++ "        ],\n"

/-- Sequential concatenation of emitted fragments, in emission order. -/
def strConcat : List String → String
  | [] => ""
  | s :: rest => s ++ strConcat rest

/-- The writer's block for one ecosystem. -/
def ecosystemBlock (eco : String) (nets : List (String × Chain)) : String :=
  "    \"" ++ eco ++ "\": \x7b\n"
    ++ strConcat (nets.map (fun p => networkBlock p.1 p.2))
    ++ "    \x7d,\n"

/-- `write_chain_const`, as the full text written to the destination file;
`now` is the value of `stamp()`. -/
def write_chain_const (now : String) (chains : ChainsDict) : String :=
  "# This file is auto-generated by scripts/update_rpc.py\n"
    ++ ("# " ++ now ++ "\n")
    ++ "# Do not edit this file directly.\n"
    ++ "PUBLIC_CHAIN_RPCS: dict[str, dict[str, list[str]]] = \x7b\n"
    ++ strConcat (chains.map (fun p => ecosystemBlock p.1 p.2))
    ++ "\x7d\n"

/-- The fixed first line of the generated file. -/
def write_head : String :=
  "# This file is auto-generated by scripts/update_rpc.py\n"

/-- Everything the writer emits after the timestamp line; independent of the
timestamp. -/
def write_tail (chains : ChainsDict) : String :=
  "# Do not edit this file directly.\n"
    ++ "PUBLIC_CHAIN_RPCS: dict[str, dict[str, list[str]]] = \x7b\n"
    ++ strConcat (chains.map (fun p => ecosystemBlock p.1 p.2))
    ++ "\x7d\n"

/-- `main()`, with the filesystem reduced to the destination file's content:
on any fetch failure the exception propagates before the writer opens the
file, so the prior content `dest` is returned unchanged; otherwise the file
is fully rewritten. -/
def run_script (get : String → Response) (now : String) (dest : String) : String :=
  match fetch_chains get with
  | .error _ => dest
  | .ok chains => write_chain_const now chains

/-- The ordered `(ecosystem, network, chain)` triples of an aggregated
result. -/
def flattenChains : ChainsDict → List (String × String × Chain)
  | [] => []
  | (eco, nets) :: rest => nets.map (fun q => (eco, q.1, q.2)) ++ flattenChains rest

/-- The ordered `(ecosystem, network, fetched chain)` triples a registry asks
for, when the fetch of chain id `cid` yields `F cid`. -/
def flattenRegistry (F : Nat → Chain) :
    List (String × List (String × Nat)) → List (String × String × Chain)
  | [] => []
  | (eco, nets) :: rest => nets.map (fun q => (eco, q.1, F q.2)) ++ flattenRegistry F rest

/-- The aggregated dict the loops build when every fetch succeeds with
`F cid`: one entry per registry ecosystem that has at least one network
(an ecosystem with no networks never reaches `ensure_dict`, so it gets no
key). -/
def aggregated (F : Nat → Chain) :
    List (String × List (String × Nat)) → ChainsDict
  | [] => []
  | (_, []) :: rest => aggregated F rest
  | (eco, q :: nets) :: rest =>
    (eco, (q :: nets).map (fun p => (p.1, F p.2))) :: aggregated F rest

/-- A schema-conforming response body with the given ids and endpoint list
(mock data for concrete runs). -/
def mkRaw (cid : Int) (rpcs : List String) : RawChain :=
  { name := some "chain", chain := some "CH", rpc := some rpcs,
    faucets := some [], nativeCurrency := some [], infoURL := some "info",
    shortName := some "ch", chainId := some cid, networkId := some cid,
    explorers := some [] }

/-- The validated record `mkRaw cid rpcs` parses to, before the scheme
filter. -/
def mkChain (cid : Int) (rpcs : List String) : Chain :=
  { name := "chain", chain := "CH", rpc := rpcs,
    faucets := [], nativeCurrency := [], infoURL := "info",
    shortName := "ch", chainId := cid, networkId := cid,
    explorers := [] }

/-- Mock body for chain id 1 in the two-entry-registry scenario. -/
def rawOne : RawChain := mkRaw 1 ["https://a", "wss://b", "http://c"]

/-- Mock body for chain id 2 in the two-entry-registry scenario. -/
def rawTwo : RawChain := mkRaw 2 ["https://d", "$\x7bX\x7d/e"]

/-- Mock HTTP layer serving `rawOne` for id 1 and `rawTwo` for id 2. -/
def mockGet (url : String) : Response :=
  if url == lookup_url 1 then ⟨200, some rawOne⟩
  else if url == lookup_url 2 then ⟨200, some rawTwo⟩
  else ⟨404, none⟩

/-- The two-entry registry of the spec's scenario. -/
def reg2 : List (String × List (String × Nat)) :=
  [("ecosystem1", [("net", 1)]), ("ecosystem2", [("net", 2)])]

/-- A mock HTTP layer answering every URL with the given status and an
unparseable body. -/
def constGet (status : Nat) : String → Response :=
  fun _ => ⟨status, none⟩

/-- The fetch results of the two-entry-registry scenario, as a function of
the chain id. -/
def mockF (cid : Nat) : Chain :=
  if cid = 1 then mkChain 1 ["https://a", "http://c"]
  else mkChain 2 ["https://d"]

/-! ## Helper lemmas -/

theorem strConcat_append (l1 l2 : List String) :
    strConcat (l1 ++ l2) = strConcat l1 ++ strConcat l2 := by
  induction l1 with
  | nil => simp [strConcat]
  | cons s rest ih => simp [strConcat, ih, String.append_assoc]

theorem keepRpc_eq (s : String) :
    keepRpc s = (splitHead ':' s == "http" || splitHead ':' s == "https") := by
  rcases h1 : splitHead ':' s == "http" <;> rcases h2 : splitHead ':' s == "https" <;>
    simp [keepRpc, INCLUDE_PROTOCOLS, List.contains, List.elem, h1, h2]

theorem beforeSep_of_not_mem (sep : Char) (l : List Char) (h : sep ∉ l) :
    beforeSep sep l = l := by
  induction l with
  | nil => rfl
  | cons c cs ih =>
    simp only [List.mem_cons, not_or] at h
    simp [beforeSep, Ne.symm h.1, ih h.2]

theorem splitHead_of_not_mem (s : String) (h : ':' ∉ s.data) :
    splitHead ':' s = s := by
  apply String.ext
  exact beforeSep_of_not_mem ':' s.data h

theorem model_validate_rpc (raw : RawChain) (c : Chain)
    (h : model_validate_json (some raw) = .ok c) : raw.rpc = some c.rpc := by
  obtain ⟨nm, ch, ic, rpc, fe, fa, nc, iu, sn, ci, ni, sl, en, ex⟩ := raw
  cases nm <;> cases ch <;> cases rpc <;> cases fa <;> cases nc <;>
    cases iu <;> cases sn <;> cases ci <;> cases ni <;> cases ex <;>
    (simp_all [model_validate_json] <;> (subst h; rfl))

theorem fetch_chain_error_of_status (get : String → Response) (cid : Nat)
    (h : (get (lookup_url cid)).status_code ≠ 200) :
    fetch_chain get cid
      = .error (.exception ("Failed to fetch " ++ lookup_url cid)) := by
  simp [fetch_chain, h]

theorem fetch_chain_of_ok_response (get : String → Response) (cid : Nat)
    (raw : RawChain) (chain : Chain)
    (hresp : get (lookup_url cid) = ⟨200, some raw⟩)
    (hval : model_validate_json (some raw) = .ok chain) :
    fetch_chain get cid = .ok { chain with rpc := chain.rpc.filter keepRpc } := by
  simp [fetch_chain, hresp, hval]

/-! ## Claim theorems (first batch) -/

/-- C2: for every chain id and every schema-conforming response body, `fetch`
returns a record whose endpoint list is exactly the entries of the source
list whose scheme (the text before the first colon) is `http` or `https`, in
their original relative order — i.e. the filter of the source list. -/
theorem fetch_chain_filters_schemes (get : String → Response) (cid : Nat)
    (raw : RawChain) (rpcs : List String)
    (hresp : get (lookup_url cid) = ⟨200, some raw⟩)
    (hrpc : raw.rpc = some rpcs)
    (hval : ∃ c, model_validate_json (some raw) = .ok c) :
    ∃ c, fetch_chain get cid = .ok c ∧
      c.rpc = rpcs.filter
        (fun s => splitHead ':' s == "http" || splitHead ':' s == "https") := by
  obtain ⟨c0, hc0⟩ := hval
  refine ⟨{ c0 with rpc := c0.rpc.filter keepRpc },
    fetch_chain_of_ok_response get cid raw c0 hresp hc0, ?_⟩
  have hr : rpcs = c0.rpc := by
    have h2 := model_validate_rpc raw c0 hc0
    rw [hrpc] at h2
    exact Option.some_inj.mp h2
  subst hr
  exact List.filter_congr (fun x _ => keepRpc_eq x)

/-- C2 witness: the concrete mock response for chain id 1. -/
theorem fetch_chain_filters_schemes_witness :
    mockGet (lookup_url 1) = ⟨200, some rawOne⟩ ∧
    rawOne.rpc = some ["https://a", "wss://b", "http://c"] ∧
    ∃ c, fetch_chain mockGet 1 = .ok c ∧
      c.rpc = (["https://a", "wss://b", "http://c"].filter
        (fun s => splitHead ':' s == "http" || splitHead ':' s == "https")) :=
  ⟨rfl, rfl, fetch_chain_filters_schemes mockGet 1 rawOne _ rfl rfl ⟨_, rfl⟩⟩

theorem rpcSection_eq_filter (rpcs : List String) :
    rpcSection rpcs
      = strConcat ((rpcs.filter (fun r => !(hasSubstr templateMarker r))).map rpcLine) := by
  induction rpcs with
  | nil => rfl
  | cons r rest ih =>
    rcases h : hasSubstr templateMarker r <;>
      simp [rpcSection, List.filter_cons, h, ih, strConcat]

/-- C3: the writer's block for a network emits exactly the network's
endpoint entries that do not contain the substring `"${"`, as quoted lines in
their original relative order; entries containing `"${"` are skipped. -/
theorem writer_skips_template_endpoints (network : String) (chain : Chain) :
    networkBlock network chain
      = "        \"" ++ network ++ "\": [\n"
        ++ strConcat ((chain.rpc.filter (fun r => !(hasSubstr templateMarker r))).map rpcLine)
        ++ "        ],\n" := by
  rw [networkBlock, rpcSection_eq_filter]

/-- C5 counterexample: two responses that differ only in their non-success
status (404 vs 500) produce the very same error value, whose message names
the URL but no status, so the raised error does not carry the response
status. -/
theorem fetch_error_same_for_distinct_statuses :
    fetch_chain (constGet 404) 1 = fetch_chain (constGet 500) 1 ∧
    fetch_chain (constGet 404) 1
      = .error (.exception ("Failed to fetch " ++ lookup_url 1)) ∧
    hasSubstr "404" ("Failed to fetch " ++ lookup_url 1) = false := by
  exact ⟨rfl, rfl, by decide⟩

/-- C5 amended: on a non-success status, `fetch_chain` fails with the bare
exception whose message carries the lookup URL (but not the status). -/
theorem fetch_error_carries_url (get : String → Response) (cid : Nat)
    (h : (get (lookup_url cid)).status_code ≠ 200) :
    fetch_chain get cid
      = .error (.exception ("Failed to fetch " ++ lookup_url cid)) :=
  fetch_chain_error_of_status get cid h

/-- C5 witness: the amended statement at status 404 and chain id 1. -/
theorem fetch_error_carries_url_witness :
    (constGet 404 (lookup_url 1)).status_code ≠ 200 ∧
    fetch_chain (constGet 404) 1
      = .error (.exception ("Failed to fetch " ++ lookup_url 1)) :=
  ⟨by decide, fetch_error_carries_url (constGet 404) 1 (by decide)⟩

theorem write_chain_const_decomp (now : String) (chains : ChainsDict) :
    write_chain_const now chains
      = write_head ++ ("# " ++ now ++ "\n") ++ write_tail chains := by
  apply String.ext
  simp [write_chain_const, write_head, write_tail, String.data_append,
    List.append_assoc]

/-- C6: two writer runs over the same aggregated result produce identical
output except for the embedded timestamp line `# <stamp>`. -/
theorem write_deterministic_modulo_stamp (chains : ChainsDict) (now1 now2 : String) :
    ∃ pre post,
      write_chain_const now1 chains = pre ++ ("# " ++ now1 ++ "\n") ++ post ∧
      write_chain_const now2 chains = pre ++ ("# " ++ now2 ++ "\n") ++ post :=
  ⟨write_head, write_tail chains,
    write_chain_const_decomp now1 chains, write_chain_const_decomp now2 chains⟩

/-- C9: the scheme filter depends only on the text before the first colon;
on a string with no colon it keeps the string iff it is exactly `"http"` or
`"https"`; and the comparison is case-sensitive, so `"HTTPS://x"` is
dropped. -/
theorem scheme_filter_semantics :
    (∀ s t : String, splitHead ':' s = splitHead ':' t → keepRpc s = keepRpc t)
    ∧ (∀ s : String, ':' ∉ s.data → (keepRpc s = true ↔ s = "http" ∨ s = "https"))
    ∧ keepRpc "HTTPS://x" = false := by
  refine ⟨?_, ?_, by decide⟩
  · intro s t h
    simp [keepRpc, h]
  · intro s h
    rw [keepRpc_eq, splitHead_of_not_mem s h]
    rcases h1 : s == "http" <;> rcases h2 : s == "https" <;>
      simp_all [beq_iff_eq]

/-- C9 witness: concrete colonless and upper-case inputs. -/
theorem scheme_filter_semantics_witness :
    keepRpc "http" = true ∧ keepRpc "HTTPS://x" = false :=
  ⟨(scheme_filter_semantics.2.1 "http" (by decide)).mpr (Or.inl rfl),
   scheme_filter_semantics.2.2⟩

/-- C10: every response status other than exactly 200 — including other 2xx
statuses such as 201 or 204 — makes `fetch_chain` fail. -/
theorem fetch_chain_nonsuccess_aborts (get : String → Response) (cid : Nat)
    (h : (get (lookup_url cid)).status_code ≠ 200) :
    ∃ e, fetch_chain get cid = .error e := by
  exact ⟨_, fetch_chain_error_of_status get cid h⟩

/-- C10 witness: statuses 201 and 204 abort the fetch of chain id 5. -/
theorem fetch_chain_nonsuccess_aborts_witness :
    ((constGet 201 (lookup_url 5)).status_code ≠ 200
      ∧ ∃ e, fetch_chain (constGet 201) 5 = .error e)
    ∧ ((constGet 204 (lookup_url 5)).status_code ≠ 200
      ∧ ∃ e, fetch_chain (constGet 204) 5 = .error e) :=
  ⟨⟨by decide, fetch_chain_nonsuccess_aborts (constGet 201) 5 (by decide)⟩,
   ⟨by decide, fetch_chain_nonsuccess_aborts (constGet 204) 5 (by decide)⟩⟩

/-! ## Error propagation through the aggregator -/

theorem fetch_chain_isError_of (get : String → Response) (cid : Nat)
    (h : (get (lookup_url cid)).status_code ≠ 200
      ∨ ¬∃ c, model_validate_json (get (lookup_url cid)).text = .ok c) :
    ∃ e, fetch_chain get cid = .error e := by
  rcases h with h | h
  · exact ⟨_, fetch_chain_error_of_status get cid h⟩
  · by_cases hs : (get (lookup_url cid)).status_code = 200
    · rcases hv : model_validate_json (get (lookup_url cid)).text with e | c
      · exact ⟨e, by simp [fetch_chain, hs, hv]⟩
      · exact absurd ⟨c, hv⟩ h
    · exact ⟨_, fetch_chain_error_of_status get cid hs⟩

theorem fetch_nets_error (get : String → Response) (eco : String) :
    ∀ (nets : List (String × Nat)) (acc : ChainsDict) (network : String) (cid : Nat),
      (network, cid) ∈ nets → (∃ e, fetch_chain get cid = .error e) →
      ∃ e2, fetch_nets get eco nets acc = .error e2 := by
  intro nets
  induction nets with
  | nil => intro acc network cid hmem _; cases hmem
  | cons p rest ih =>
    intro acc network cid hmem herr
    obtain ⟨n0, cid0⟩ := p
    rcases hfc : fetch_chain get cid0 with e0 | c0
    · exact ⟨e0, by simp [fetch_nets, hfc]⟩
    · rcases List.mem_cons.mp hmem with heq | hmem2
      · cases heq
        obtain ⟨e, he⟩ := herr
        rw [he] at hfc
        cases hfc
      · obtain ⟨e2, h2⟩ :=
          ih (setNested (ensure_dict acc eco) eco n0 c0) network cid hmem2 herr
        exact ⟨e2, by simp [fetch_nets, hfc, h2]⟩

theorem fetch_chains_from_error (get : String → Response) :
    ∀ (reg : List (String × List (String × Nat))) (acc : ChainsDict)
      (eco : String) (nets : List (String × Nat)) (network : String) (cid : Nat),
      (eco, nets) ∈ reg → (network, cid) ∈ nets →
      (∃ e, fetch_chain get cid = .error e) →
      ∃ e2, fetch_chains_from get reg acc = .error e2 := by
  intro reg
  induction reg with
  | nil => intro acc eco nets network cid hmem1 _ _; cases hmem1
  | cons p rest ih =>
    intro acc eco nets network cid hmem1 hmem2 herr
    obtain ⟨eco0, nets0⟩ := p
    rcases hfn : fetch_nets get eco0 nets0 acc with e0 | acc2
    · exact ⟨e0, by simp [fetch_chains_from, hfn]⟩
    · rcases List.mem_cons.mp hmem1 with heq | hmem1r
      · cases heq
        obtain ⟨e2, h2⟩ := fetch_nets_error get eco nets acc network cid hmem2 herr
        rw [h2] at hfn
        cases hfn
      · obtain ⟨e2, h2⟩ := ih acc2 eco nets network cid hmem1r hmem2 herr
        exact ⟨e2, by simp [fetch_chains_from, hfn, h2]⟩

/-- C1: if the fetch of any configured chain id fails — non-success status or
a body that does not validate — the whole aggregation fails, so the run ends
before the writer and the destination file keeps its previous content. -/
theorem run_aborts_on_fetch_failure (get : String → Response) (now dest : String)
    (h : ∃ eco nets network cid, (eco, nets) ∈ CHAIN_IDS ∧ (network, cid) ∈ nets ∧
      ((get (lookup_url cid)).status_code ≠ 200
        ∨ ¬∃ c, model_validate_json (get (lookup_url cid)).text = .ok c)) :
    run_script get now dest = dest ∧ ∃ e, fetch_chains get = .error e := by
  obtain ⟨eco, nets, network, cid, h1, h2, h3⟩ := h
  obtain ⟨e2, hch⟩ := fetch_chains_from_error get CHAIN_IDS [] eco nets network cid
    h1 h2 (fetch_chain_isError_of get cid h3)
  have hrun : fetch_chains get = .error e2 := hch
  exact ⟨by simp [run_script, hrun], ⟨e2, hrun⟩⟩

/-- C1 witness: an HTTP layer that always answers 404 leaves the previous
destination content in place. -/
theorem run_aborts_on_fetch_failure_witness :
    run_script (constGet 404) "TS" "previous content" = "previous content" ∧
    ∃ e, fetch_chains (constGet 404) = .error e :=
  run_aborts_on_fetch_failure (constGet 404) "TS" "previous content"
    ⟨"ethereum", [("mainnet", 1), ("goerli", 5), ("sepolia", 11155111)],
     "mainnet", 1, by decide, by decide, Or.inl (by decide)⟩

set_option maxRecDepth 100000

/-- C4: on the two-entry registry with the given mock fetch results, the
aggregated dict holds exactly the filtered endpoint lists and the generated
file lists, under `ecosystem1 -> net`, exactly `"https://a"` and
`"http://c"`, and under `ecosystem2 -> net`, exactly `"https://d"`. -/
theorem two_entry_registry_scenario (now : String) :
    fetch_chains_from mockGet reg2 []
      = .ok [("ecosystem1", [("net", mockF 1)]), ("ecosystem2", [("net", mockF 2)])]
    ∧ (mockF 1).rpc = ["https://a", "http://c"]
    ∧ (mockF 2).rpc = ["https://d"]
    ∧ write_chain_const now
        [("ecosystem1", [("net", mockF 1)]), ("ecosystem2", [("net", mockF 2)])]
      = "# This file is auto-generated by scripts/update_rpc.py\n"
        ++ ("# " ++ now ++ "\n")
        ++ "# Do not edit this file directly.\nPUBLIC_CHAIN_RPCS: dict[str, dict[str, list[str]]] = \x7b\n    \"ecosystem1\": \x7b\n        \"net\": [\n            \"https://a\",\n            \"http://c\",\n        ],\n    \x7d,\n    \"ecosystem2\": \x7b\n        \"net\": [\n            \"https://d\",\n        ],\n    \x7d,\n\x7d\n" := by
  refine ⟨rfl, rfl, rfl, ?_⟩
  rw [write_chain_const_decomp]
  congr 1

/-! ## Substring machinery for locating emitted blocks -/

theorem matchHead_refl : ∀ n : List Char, matchHead n n = true
  | [] => rfl
  | c :: cs => by simp [matchHead, matchHead_refl cs]

theorem matchHead_mono (n : List Char) :
    ∀ h t, matchHead n h = true → matchHead n (h ++ t) = true := by
  induction n with
  | nil => intro h t _; rfl
  | cons a as ih =>
    intro h t hm
    cases h with
    | nil => simp [matchHead] at hm
    | cons b bs =>
      simp only [matchHead, Bool.and_eq_true] at hm
      simp only [List.cons_append, matchHead, Bool.and_eq_true]
      exact ⟨hm.1, ih bs t hm.2⟩

theorem containsSub_nil_left : ∀ t : List Char, containsSub [] t = true
  | [] => rfl
  | _ :: cs => by simp [containsSub, matchHead]

theorem containsSub_of_matchHead (n h : List Char) (hm : matchHead n h = true) :
    containsSub n h = true := by
  cases h with
  | nil => simpa [containsSub] using hm
  | cons c cs => simp [containsSub, hm]

theorem containsSub_mono_right (n : List Char) :
    ∀ h t, containsSub n h = true → containsSub n (h ++ t) = true := by
  intro h
  induction h with
  | nil =>
    intro t hc
    have hn : n = [] := by
      cases n with
      | nil => rfl
      | cons a as => simp [containsSub, matchHead] at hc
    subst hn
    exact containsSub_nil_left t
  | cons c cs ih =>
    intro t hc
    simp only [containsSub, Bool.or_eq_true] at hc
    simp only [List.cons_append, containsSub, Bool.or_eq_true]
    rcases hc with hm | hcc
    · exact Or.inl (matchHead_mono n (c :: cs) t hm)
    · exact Or.inr (ih t hcc)

theorem containsSub_mono_left (n : List Char) (t h : List Char)
    (hc : containsSub n h = true) : containsSub n (t ++ h) = true := by
  induction t with
  | nil => exact hc
  | cons c cs ih =>
    simp only [List.cons_append, containsSub, Bool.or_eq_true]
    exact Or.inr ih

theorem hasSubstr_self (s : String) : hasSubstr s s = true :=
  containsSub_of_matchHead _ _ (matchHead_refl s.data)

theorem hasSubstr_mono_left (needle s t : String)
    (h : hasSubstr needle s = true) : hasSubstr needle (t ++ s) = true := by
  unfold hasSubstr at h ⊢
  rw [String.data_append]
  exact containsSub_mono_left _ _ _ h

theorem hasSubstr_mono_right (needle s t : String)
    (h : hasSubstr needle s = true) : hasSubstr needle (s ++ t) = true := by
  unfold hasSubstr at h ⊢
  rw [String.data_append]
  exact containsSub_mono_right _ _ _ h

theorem hasSubstr_strConcat (needle : String) {α : Type} (f : α → String)
    (l : List α) (x : α) (hx : x ∈ l) (h : hasSubstr needle (f x) = true) :
    hasSubstr needle (strConcat (l.map f)) = true := by
  obtain ⟨p, q, rfl⟩ := List.append_of_mem hx
  rw [List.map_append, strConcat_append, List.map_cons]
  apply hasSubstr_mono_left
  show hasSubstr needle (f x ++ strConcat (q.map f)) = true
  exact hasSubstr_mono_right _ _ _ h

theorem rpcSection_empty_of_all_template (rpcs : List String)
    (h : ∀ r ∈ rpcs, hasSubstr templateMarker r = true) : rpcSection rpcs = "" := by
  induction rpcs with
  | nil => rfl
  | cons r rest ih =>
    have hr := h r (List.mem_cons_self r rest)
    rw [rpcSection, hr, if_pos rfl, ih (fun x hx => h x (List.mem_cons_of_mem r hx)),
      String.empty_append]

/-- C8: every network key of the aggregated result shows up in the generated
file; a network whose every endpoint contains `"${"` (in particular one with
no endpoints at all) is still emitted, with an empty list literal. -/
theorem network_key_always_emitted (now : String) (chains : ChainsDict)
    (eco : String) (nets : List (String × Chain)) (network : String) (chain : Chain)
    (h1 : (eco, nets) ∈ chains) (h2 : (network, chain) ∈ nets) :
    hasSubstr ("        \"" ++ network ++ "\": [\n")
      (write_chain_const now chains) = true
    ∧ ((∀ r ∈ chain.rpc, hasSubstr templateMarker r = true) →
        hasSubstr ("        \"" ++ network ++ "\": [\n        ],\n")
          (write_chain_const now chains) = true) := by
  have lift : ∀ needle : String,
      hasSubstr needle (networkBlock network chain) = true →
      hasSubstr needle (write_chain_const now chains) = true := by
    intro needle hn
    have hecos : hasSubstr needle (ecosystemBlock eco nets) = true := by
      unfold ecosystemBlock
      apply hasSubstr_mono_right
      apply hasSubstr_mono_left
      exact hasSubstr_strConcat needle _ nets (network, chain) h2 hn
    unfold write_chain_const
    apply hasSubstr_mono_right
    apply hasSubstr_mono_left
    exact hasSubstr_strConcat needle _ chains (eco, nets) h1 hecos
  constructor
  · apply lift
    unfold networkBlock
    apply hasSubstr_mono_right
    apply hasSubstr_mono_right
    exact hasSubstr_self _
  · intro hall
    apply lift
    unfold networkBlock
    rw [rpcSection_empty_of_all_template chain.rpc hall, String.append_empty]
    have hlit : ("\": [\n" : String) ++ "        ],\n" = "\": [\n        ],\n" := rfl
    have htarget : ("        \"" ++ network ++ "\": [\n" : String) ++ "        ],\n"
        = "        \"" ++ network ++ "\": [\n        ],\n" := by
      rw [String.append_assoc ("        \"" ++ network), hlit]
    rw [htarget]
    exact hasSubstr_self _

/-- C8 witness: a network with an empty endpoint list and one whose only
endpoint is a template are both emitted as empty list literals. -/
theorem network_key_always_emitted_witness :
    hasSubstr ("        \"" ++ "empty" ++ "\": [\n")
      (write_chain_const "TS" [("eco", [("empty", mkChain 9 [])])]) = true
    ∧ hasSubstr ("        \"" ++ "empty" ++ "\": [\n        ],\n")
        (write_chain_const "TS" [("eco", [("empty", mkChain 9 [])])]) = true := by
  have h := network_key_always_emitted "TS" [("eco", [("empty", mkChain 9 [])])]
    "eco" [("empty", mkChain 9 [])] "empty" (mkChain 9 []) (by decide) (by decide)
  exact ⟨h.1, h.2 (by decide)⟩

/-! ## Shape of the aggregated result when every fetch succeeds -/

theorem any_key_eq {α : Type} (l : List (String × α)) (k : String) :
    l.any (fun p => p.1 == k) = true ↔ k ∈ l.map Prod.fst := by
  rw [List.any_eq_true]
  constructor
  · rintro ⟨x, hx, hk⟩
    rw [beq_iff_eq] at hk
    rw [← hk]
    exact List.mem_map_of_mem Prod.fst hx
  · intro hk
    obtain ⟨x, hx, hxk⟩ := List.mem_map.mp hk
    exact ⟨x, hx, by rw [beq_iff_eq, hxk]⟩

theorem ensure_dict_mem (d : ChainsDict) (k : String) (h : k ∈ d.map Prod.fst) :
    ensure_dict d k = d := by
  simp [ensure_dict, (any_key_eq d k).mpr h]

theorem ensure_dict_not_mem (d : ChainsDict) (k : String)
    (h : k ∉ d.map Prod.fst) : ensure_dict d k = d ++ [(k, [])] := by
  cases hb : d.any (fun p => p.1 == k) with
  | false => simp [ensure_dict, hb]
  | true => exact absurd ((any_key_eq d k).mp hb) h

theorem dictSet_not_mem {α : Type} (d : List (String × α)) (k : String) (v : α)
    (h : k ∉ d.map Prod.fst) : dictSet d k v = d ++ [(k, v)] := by
  cases hb : d.any (fun p => p.1 == k) with
  | false => simp [dictSet, hb]
  | true => exact absurd ((any_key_eq d k).mp hb) h

theorem map_setNested_skip (network : String) (c : Chain) (eco : String) :
    ∀ pre : ChainsDict, eco ∉ pre.map Prod.fst →
      pre.map (fun p => if p.1 == eco then (p.1, dictSet p.2 network c) else p)
        = pre := by
  intro pre
  induction pre with
  | nil => intro _; rfl
  | cons p ps ih =>
    intro h
    rw [List.map_cons, List.mem_cons] at h
    obtain ⟨ha, hb⟩ := not_or.mp h
    rw [List.map_cons,
      if_neg (show ¬(p.1 == eco) = true by
        simp only [beq_iff_eq]
        exact fun hc => ha hc.symm),
      ih hb]

theorem setNested_last (pre : ChainsDict) (eco : String)
    (cur : List (String × Chain)) (network : String) (c : Chain)
    (h : eco ∉ pre.map Prod.fst) :
    setNested (pre ++ [(eco, cur)]) eco network c
      = pre ++ [(eco, dictSet cur network c)] := by
  unfold setNested
  rw [List.map_append, map_setNested_skip network c eco pre h]
  simp

theorem fetch_nets_ok (get : String → Response) (eco : String) (F : Nat → Chain) :
    ∀ (nets : List (String × Nat)) (pre : ChainsDict) (cur : List (String × Chain)),
      eco ∉ pre.map Prod.fst →
      (∀ network cid, (network, cid) ∈ nets → fetch_chain get cid = .ok (F cid)) →
      (nets.map Prod.fst).Nodup →
      (∀ n ∈ nets.map Prod.fst, n ∉ cur.map Prod.fst) →
      fetch_nets get eco nets (pre ++ [(eco, cur)])
        = .ok (pre ++ [(eco, cur ++ nets.map (fun q => (q.1, F q.2)))]) := by
  intro nets
  induction nets with
  | nil => intro pre cur _ _ _ _; simp [fetch_nets]
  | cons q rest ih =>
    intro pre cur hpre hF hnd hdisj
    obtain ⟨n0, cid0⟩ := q
    have hmem : eco ∈ ((pre ++ [(eco, cur)]).map Prod.fst) := by simp
    have hn0 : n0 ∉ cur.map Prod.fst := hdisj n0 (by simp)
    simp only [fetch_nets, ensure_dict_mem _ _ hmem,
      hF n0 cid0 (List.mem_cons_self _ _),
      setNested_last pre eco cur n0 (F cid0) hpre,
      dictSet_not_mem cur n0 (F cid0) hn0]
    have hnd2 := List.nodup_cons.mp
      (show (n0 :: rest.map Prod.fst).Nodup from hnd)
    have hdisj2 : ∀ n ∈ rest.map Prod.fst,
        n ∉ (cur ++ [(n0, F cid0)]).map Prod.fst := by
      intro n hn hcontra
      rw [List.map_append] at hcontra
      rcases List.mem_append.mp hcontra with hc | hc
      · exact hdisj n (by simp [hn]) hc
      · have hn0eq : n = n0 := by simpa using hc
        subst hn0eq
        exact hnd2.1 hn
    rw [ih pre (cur ++ [(n0, F cid0)]) hpre
      (fun network cid hm => hF network cid (List.mem_cons_of_mem _ hm))
      hnd2.2 hdisj2]
    simp

theorem fetch_chains_from_ok (get : String → Response) (F : Nat → Chain) :
    ∀ (reg : List (String × List (String × Nat))) (acc : ChainsDict),
      (reg.map Prod.fst).Nodup →
      (∀ p ∈ reg, (p.2.map Prod.fst).Nodup) →
      (∀ e ∈ reg.map Prod.fst, e ∉ acc.map Prod.fst) →
      (∀ eco nets network cid, (eco, nets) ∈ reg → (network, cid) ∈ nets →
        fetch_chain get cid = .ok (F cid)) →
      fetch_chains_from get reg acc = .ok (acc ++ aggregated F reg) := by
  intro reg
  induction reg with
  | nil => intro acc _ _ _ _; simp [fetch_chains_from, aggregated]
  | cons p rest ih =>
    intro acc hnd hnets hdisj hF
    obtain ⟨eco, nets⟩ := p
    have hnd2 := List.nodup_cons.mp
      (show (eco :: rest.map Prod.fst).Nodup from hnd)
    have hdisjr : ∀ e ∈ rest.map Prod.fst, e ∉ acc.map Prod.fst :=
      fun e he => hdisj e (by simp [he])
    have hFr : ∀ eco2 nets2 network cid, (eco2, nets2) ∈ rest →
        (network, cid) ∈ nets2 → fetch_chain get cid = .ok (F cid) :=
      fun eco2 nets2 network cid hm => hF eco2 nets2 network cid (List.mem_cons_of_mem _ hm)
    have hnetsr : ∀ p ∈ rest, ((p.2.map Prod.fst).Nodup) :=
      fun p hp => hnets p (List.mem_cons_of_mem _ hp)
    cases nets with
    | nil =>
      simp only [fetch_chains_from, fetch_nets]
      show fetch_chains_from get rest acc
        = Except.ok (acc ++ aggregated F ((eco, []) :: rest))
      rw [ih acc hnd2.2 hnetsr hdisjr hFr]
      rfl
    | cons q nrest =>
      obtain ⟨n0, cid0⟩ := q
      have heco_not : eco ∉ acc.map Prod.fst := hdisj eco (by simp)
      have hinner_nd := List.nodup_cons.mp
        (show (n0 :: nrest.map Prod.fst).Nodup from
          hnets (eco, (n0, cid0) :: nrest) (List.mem_cons_self _ _))
      simp only [fetch_chains_from, fetch_nets, ensure_dict_not_mem acc eco heco_not,
        hF eco ((n0, cid0) :: nrest) n0 cid0 (List.mem_cons_self _ _)
          (List.mem_cons_self _ _),
        setNested_last acc eco [] n0 (F cid0) heco_not]
      have hset : dictSet ([] : List (String × Chain)) n0 (F cid0)
          = [(n0, F cid0)] := rfl
      rw [hset, fetch_nets_ok get eco F nrest acc [(n0, F cid0)] heco_not
        (fun network cid hm =>
          hF eco ((n0, cid0) :: nrest) network cid (List.mem_cons_self _ _)
            (List.mem_cons_of_mem _ hm))
        hinner_nd.2
        (by
          intro n hn hcontra
          have hn0eq : n = n0 := by simpa using hcontra
          subst hn0eq
          exact hinner_nd.1 hn)]
      have hdisj3 : ∀ e ∈ rest.map Prod.fst,
          e ∉ ((acc ++ [(eco, [(n0, F cid0)] ++ nrest.map (fun q => (q.1, F q.2)))]).map
            Prod.fst) := by
        intro e he hcontra
        rw [List.map_append] at hcontra
        rcases List.mem_append.mp hcontra with hc | hc
        · exact hdisjr e he hc
        · have heeq : e = eco := by simpa using hc
          subst heeq
          exact hnd2.1 he
      show fetch_chains_from get rest
          (acc ++ [(eco, [(n0, F cid0)] ++ nrest.map (fun q => (q.1, F q.2)))])
        = Except.ok (acc ++ aggregated F ((eco, (n0, cid0) :: nrest) :: rest))
      rw [ih _ hnd2.2 hnetsr hdisj3 hFr]
      simp [aggregated, List.append_assoc]

theorem flatten_aggregated (F : Nat → Chain) :
    ∀ reg, flattenChains (aggregated F reg) = flattenRegistry F reg := by
  intro reg
  induction reg with
  | nil => rfl
  | cons p rest ih =>
    obtain ⟨eco, nets⟩ := p
    cases nets with
    | nil => simp [aggregated, flattenRegistry, ih]
    | cons q nrest =>
      simp [aggregated, flattenChains, flattenRegistry, ih, List.map_map,
        Function.comp]

/-- C7: for every registry with distinct ecosystem keys and distinct network
keys, when every fetch succeeds the aggregator returns a nested mapping whose
(ecosystem, network) pairs are exactly the registry's pairs, in the
registry's order, each network bound to the fetch result of its chain id. -/
theorem fetchAll_structure (get : String → Response)
    (reg : List (String × List (String × Nat))) (F : Nat → Chain)
    (hnd : (reg.map Prod.fst).Nodup)
    (hnets : ∀ p ∈ reg, (p.2.map Prod.fst).Nodup)
    (hF : ∀ eco nets network cid, (eco, nets) ∈ reg → (network, cid) ∈ nets →
      fetch_chain get cid = .ok (F cid)) :
    ∃ D, fetch_chains_from get reg [] = .ok D
      ∧ flattenChains D = flattenRegistry F reg := by
  refine ⟨aggregated F reg, ?_, flatten_aggregated F reg⟩
  have h := fetch_chains_from_ok get F reg [] hnd hnets (by simp) hF
  simpa using h

/-- C7 witness: the two-entry registry with the mock fetch results. -/
theorem fetchAll_structure_witness :
    ∃ D, fetch_chains_from mockGet reg2 [] = .ok D
      ∧ flattenChains D = flattenRegistry mockF reg2 :=
  fetchAll_structure mockGet reg2 mockF (by decide) (by decide)
    (by
      intro eco nets network cid h1 h2
      fin_cases h1 <;> fin_cases h2 <;> rfl)

end UpdateRpc
